import Mathlib

/-!
Verification of the smartedu downloader core (src/main.rs) via a shallow
embedding in Lean.  Pure functions of the source are translated directly;
effectful operations (HTTP requests, file reads) are modelled by passing the
observed results of the external world as explicit inputs (for example, a
download attempt's outcome is an oracle value, and a local file is a record of
what the filesystem calls would have returned).
-/

namespace Smartedu

/-- Mirrors `MAX_RETRIES` (src/main.rs line 32). -/
def MAX_RETRIES : Nat := 3

/-- Mirrors `RETRY_BASE_DELAY_MS` (src/main.rs line 33), in milliseconds. -/
def RETRY_BASE_DELAY_MS : Nat := 500

/-- Mirrors the `DownloadStatus` enum (src/main.rs lines 70-81). -/
inductive DownloadStatus where
  | Success
  | SuccessNoValidation
  | Skipped
  | TokenError
  | Md5ValidationFailed
  | SizeValidationFailed
  | NetworkError
  | FailGetDetails
  | UnexpectedError
deriving DecidableEq, Repr

/-- Mirrors the `AppError` variants reachable from the embedded pure code
(src/main.rs lines 53-67).  Only the variants the embedded functions
construct are modelled. -/
inductive AppError where
  | detailFetch (msg : String)
  | invalidInput (msg : String)
deriving DecidableEq, Repr

/-- Mirrors the `TextbookInfo` struct (src/main.rs lines 83-89). -/
structure TextbookInfo where
  download_url : String
  filename : String
  expected_md5 : Option String
  expected_size : Option Nat
deriving DecidableEq, Repr

/-- Mirrors the `TechInfoItem` struct (src/main.rs lines 97-104). -/
structure TechInfoItem where
  ti_file_flag : String
  ti_format : String
  ti_storages : List String
  ti_md5 : Option String
  ti_size : Option Nat
deriving DecidableEq, Repr

/-- Mirrors the `TextbookDetailsResponse` struct (src/main.rs lines 91-95). -/
structure TextbookDetailsResponse where
  ti_items : List TechInfoItem
  title : String
deriving DecidableEq, Repr

/-- A character of the class `[0-9a-f]` used by `UUID_REGEX`. -/
def isLowerHex (c : Char) : Bool :=
  (c.toNat ≥ 48 && c.toNat ≤ 57) || (c.toNat ≥ 97 && c.toNat ≤ 102)

/-- Mirrors `UUID_REGEX` (src/main.rs line 36): the anchored pattern
`[0-9a-f]\x7b8\x7d-[0-9a-f]\x7b4\x7d-[0-9a-f]\x7b4\x7d-[0-9a-f]\x7b4\x7d-[0-9a-f]\x7b12\x7d`,
i.e. 36 characters with dashes at (0-based) positions 8, 13, 18, 23 and
lowercase hex digits everywhere else. -/
def uuidMatch (s : String) : Bool :=
  let cs := s.toList
  cs.length = 36 &&
    (List.range 36).all (fun i =>
      if i = 8 || i = 13 || i = 18 || i = 23 then cs.getD i ' ' = '-'
      else isLowerHex (cs.getD i ' '))

/-- Mirrors `get_content_id` (src/main.rs lines 135-145).  URL parsing
(`reqwest::Url::parse` followed by `query_pairs()`) is an external library
call, modelled by the parameter `parseQuery`: `parseQuery input` is `some
pairs` when the input parses as a URL whose query pairs are `pairs` (in
order), and `none` when URL parsing fails.  The source scans the pairs with
`find_map`, keeping the first pair whose key is exactly "contentId" and whose
value matches `UUID_REGEX`. -/
def get_content_id (parseQuery : String → Option (List (String × String)))
    (input : String) : Option String :=
  if uuidMatch input then
    some input
  else
    match parseQuery input with
    | some pairs =>
        pairs.findSome? (fun kv =>
          if kv.1 = "contentId" && uuidMatch kv.2 then some kv.2 else none)
    | none => none

/-- Mirrors `FILENAME_REGEX` (src/main.rs line 35): the character class of
filesystem-illegal characters replaced by `sanitize_filename`. -/
def isIllegalFilenameChar (c : Char) : Bool :=
  c = '<' || c = '>' || c = ':' || c = '"' || c = '/' || c = '\\' ||
  c = '|' || c = '?' || c = '*'

/-- Mirrors `sanitize_filename` (src/main.rs lines 147-149): every character
matching `FILENAME_REGEX` is replaced by an underscore. -/
def sanitize_filename (filename : String) : String :=
  ⟨filename.data.map (fun c => if isIllegalFilenameChar c then '_' else c)⟩

/-- ASCII lowercasing of one character, modelling what Rust's
`to_lowercase` does on the ASCII paths and extensions this program
compares. -/
def charLower (c : Char) : Char :=
  if c.toNat ≥ 65 && c.toNat ≤ 90 then Char.ofNat (c.toNat + 32) else c

/-- Models `str::to_lowercase` (ASCII range). -/
def strToLower (s : String) : String :=
  ⟨s.data.map charLower⟩

/-- `charsBeginWith pat cs` is true when `pat` is an initial segment of
`cs`. -/
def charsBeginWith : List Char → List Char → Bool
  | [], _ => true
  | _ :: _, [] => false
  | a :: as, b :: bs => a = b && charsBeginWith as bs

/-- Models `str::ends_with`: `post` is a final segment of `s`. -/
def strEndsWith (s post : String) : Bool :=
  charsBeginWith post.data.reverse s.data.reverse

/-- Models `Path::new(p).file_name()` for the URL-style paths this program
feeds it: the maximal run of characters after the last `/`, and `none` when
that run is empty or is the parent-directory component. -/
def pathFileName (p : String) : Option String :=
  let comp := (p.data.reverse.takeWhile (fun c => c ≠ '/')).reverse
  if comp = [] || comp = ['.', '.'] then none else some ⟨comp⟩

/-- The title-fallback test of `get_textbook_details` (src/main.rs line
171): the storage path, lowercased, ends with the double extension
"pdf.pdf". -/
def storage_is_pdf_pdf (pdf_url_base : String) : Bool :=
  strEndsWith (strToLower pdf_url_base) "pdf.pdf"

/-- The observable state of a local file, modelling the three filesystem
probes `validate_local_file` performs: `path.exists()`, the result of
`calculate_file_md5` (`some hex` for `Ok`, `none` for an I/O `Err`), and the
result of `fs::metadata(path).len()` (`some n` for `Ok`, `none` for `Err`). -/
structure LocalFile where
  onDisk : Bool
  md5Result : Option String
  sizeResult : Option Nat
deriving DecidableEq, Repr

/-- The inner md5 check of `validate_local_file` (src/main.rs lines 193-197):
true when an expected md5 is present, the file's md5 computation succeeded
and the two agree. -/
def md5Matches (f : LocalFile) (info : TextbookInfo) : Bool :=
  match info.expected_md5, f.md5Result with
  | some em, some am => am = em
  | _, _ => false

/-- The inner size check of `validate_local_file` (src/main.rs lines 198-202):
true when an expected size is present, the metadata read succeeded and the
on-disk length equals it. -/
def sizeMatches (f : LocalFile) (info : TextbookInfo) : Bool :=
  match info.expected_size, f.sizeResult with
  | some es, some len => len = es
  | _, _ => false

/-- Mirrors `validate_local_file` (src/main.rs lines 191-206).  Every return
in the source is `Ok(_)`, so the embedded function returns `DownloadStatus`
directly. -/
def validate_local_file (f : LocalFile) (info : TextbookInfo) : DownloadStatus :=
  if !f.onDisk then .SizeValidationFailed
  else if md5Matches f info then .Success
  else if sizeMatches f info then .Success
  else if info.expected_md5.isNone && info.expected_size.isNone then .SuccessNoValidation
  else if info.expected_md5.isSome then .Md5ValidationFailed
  else .SizeValidationFailed

/-- The observable result of one iteration of the retry loop in
`download_file` (src/main.rs lines 216-255), i.e. what the external world
answered on that attempt:
* `sendErr` — `client.get(..).send()` returned `Err` (transport error);
* `statusErr unauthorized` — `response.error_for_status()` returned `Err`,
  with `unauthorized = true` exactly when the status was 401;
* `streamErr` — the response status was OK but creating the destination
  file, reading a body chunk, writing it, or flushing returned `Err` (the
  fallible operator paths at src/main.rs lines 229-236);
* `complete v` — the body was fully streamed and written, and the
  post-download `validate_local_file` call returned `v`. -/
inductive AttemptResult where
  | sendErr
  | statusErr (unauthorized : Bool)
  | streamErr
  | complete (v : DownloadStatus)
deriving DecidableEq, Repr

/-- The errors the retry block of `download_file` can end with, tagged with
the 0-based attempt index that produced them.  `fromSend`/`fromStatus` are
the two `last_error = Some(..)` assignments; `fromStream` is an error
propagated by the fallible operator out of the body-streaming code;
`unknown` is the `DetailFetch` fallback on line 257. -/
inductive DlError where
  | fromSend (attempt : Nat)
  | fromStatus (attempt : Nat)
  | fromStream (attempt : Nat)
  | unknown
deriving DecidableEq, Repr

/-- The externally visible trace of one `download_file` execution: how many
network calls (`client.get(..).send()`) were issued, and the sleep durations
(milliseconds), in order, passed to `tokio::time::sleep`. -/
structure DownloadTrace where
  calls : Nat
  sleeps : List Nat
deriving DecidableEq, Repr

/-- The error recorded into `last_error` by an attempt whose result is
retryable; `none` for results that leave the loop instead. -/
def recordedError (a : AttemptResult) (i : Nat) : Option DlError :=
  match a with
  | .sendErr => some (.fromSend i)
  | .statusErr false => some (.fromStatus i)
  | _ => none

/-- Mirrors the `for attempt in 0..MAX_RETRIES` retry loop of the inner async
block of `download_file` (src/main.rs lines 214-258).  `oracle i` is the
outside world's answer to attempt `i` (0-based); `attempt` is the loop
counter, `remaining` the iterations left (`MAX_RETRIES - attempt`),
`lastError` the `last_error` variable, and `trace` accumulates calls and
sleeps.  Before every attempt after the first the loop sleeps
`RETRY_BASE_DELAY_MS * 2 ^ (attempt - 1)` ms.  A 401 status returns
`Ok(TokenError)`; other send/status errors update `last_error` and continue;
a streaming/file error propagates out of the block immediately; a fully
written body returns the validation outcome.  When the loop exhausts its
iterations the block returns the last recorded error (or the `unknown`
fallback). -/
def download_attempts (oracle : Nat → AttemptResult) :
    Nat → Nat → Option DlError → DownloadTrace →
    Except DlError DownloadStatus × DownloadTrace
  | _, 0, lastError, trace => (.error (lastError.getD .unknown), trace)
  | attempt, remaining + 1, lastError, trace =>
    let trace1 :=
      if attempt > 0 then
        { trace with
          sleeps := trace.sleeps ++ [RETRY_BASE_DELAY_MS * 2 ^ (attempt - 1)] }
      else trace
    let trace2 := { trace1 with calls := trace1.calls + 1 }
    match oracle attempt with
    | .sendErr =>
        download_attempts oracle (attempt + 1) remaining
          (some (.fromSend attempt)) trace2
    | .statusErr true => (.ok .TokenError, trace2)
    | .statusErr false =>
        download_attempts oracle (attempt + 1) remaining
          (some (.fromStatus attempt)) trace2
    | .streamErr => (.error (.fromStream attempt), trace2)
    | .complete v => (.ok v, trace2)

/-- Mirrors `download_file` (src/main.rs lines 208-284): runs the retry block
from attempt 0 with `MAX_RETRIES` iterations available, then applies the
outer `match result` (lines 262-283), which passes every `Ok` status through
unchanged and maps every propagated error to `NetworkError`.  Progress-bar
rendering is presentation-only and not modelled. -/
def download_file (oracle : Nat → AttemptResult) :
    DownloadStatus × DownloadTrace :=
  match download_attempts oracle 0 MAX_RETRIES none ⟨0, []⟩ with
  | (.ok .Success, t) => (.Success, t)
  | (.ok .SuccessNoValidation, t) => (.SuccessNoValidation, t)
  | (.ok .TokenError, t) => (.TokenError, t)
  | (.ok s, t) => (s, t)
  | (.error _, t) => (.NetworkError, t)

/-- The backoff schedule the retry loop is specified to follow: the i-th
sleep (0-based, taken before 1-based attempt i + 2) lasts
`RETRY_BASE_DELAY_MS * 2 ^ i` milliseconds. -/
def backoffSleeps (n : Nat) : List Nat :=
  (List.range n).map (fun i => RETRY_BASE_DELAY_MS * 2 ^ i)

/-- An attempt result the retry loop records into `last_error` and then
continues from: a transport error of `send()`, or a non-401 HTTP status
error.  Streaming/file errors and 401 are not retryable in the source. -/
def retryableResult (a : AttemptResult) : Prop :=
  a = .sendErr ∨ a = .statusErr false

/-- The variant-selection predicate of `get_textbook_details` (src/main.rs
line 167): role flag "source" and format "pdf". -/
def isSourcePdf (item : TechInfoItem) : Bool :=
  item.ti_file_flag = "source" && item.ti_format = "pdf"

/-- Mirrors `get_textbook_details` (src/main.rs lines 163-189) from the
point where the details response has been received and parsed: the HTTP GET
and JSON decoding are effectful and their already-parsed result is the
`data` argument (a fetch/parse failure never reaches this code).  Selects
the source-PDF variant, takes its first storage location, derives the
filename (display title when the storage path is the "pdf.pdf"
title-fallback case, otherwise the path's base name, falling back to the
content id), appends ".pdf" when missing, sanitizes it, and returns the
metadata; the expected md5 is dropped in the title-fallback case. -/
def get_textbook_details (data : TextbookDetailsResponse)
    (content_id access_token : String) : Except AppError TextbookInfo :=
  match data.ti_items.find? isSourcePdf with
  | none => .error (.detailFetch ("no source pdf for " ++ content_id))
  | some source_item =>
    match source_item.ti_storages.head? with
    | none => .error (.detailFetch ("no storage for " ++ content_id))
    | some pdf_url_base =>
      let is_pdf_pdf := storage_is_pdf_pdf pdf_url_base
      let base := if is_pdf_pdf then data.title
        else
          match pathFileName pdf_url_base with
          | some n => n
          | none => content_id
      let final_filename :=
        if strEndsWith (strToLower base) ".pdf" then base else base ++ ".pdf"
      .ok { download_url := pdf_url_base ++ "?accessToken=" ++ access_token,
            filename := sanitize_filename final_filename,
            expected_md5 := if is_pdf_pdf then none else source_item.ti_md5,
            expected_size := source_item.ti_size }

/-- The loop body of `collect_download_items` (src/main.rs lines 461-472),
written as structural recursion over the remaining raw inputs.  `seen`
models the `processed_ids` hash set as the list of identifiers inserted so
far; an input whose extraction fails, or whose identifier was already seen,
contributes nothing. -/
def collectAux (parseQuery : String → Option (List (String × String))) :
    List String → List String → List (String × String)
  | [], _ => []
  | original :: rest, seen =>
    match get_content_id parseQuery original with
    | some id =>
        if id ∈ seen then collectAux parseQuery rest seen
        else (id, original) :: collectAux parseQuery rest (id :: seen)
    | none => collectAux parseQuery rest seen

/-- The `InvalidInput` error `collect_download_items` returns on an empty
item list (src/main.rs line 481). -/
def no_items_error : AppError :=
  .invalidInput "未找到任何有效的下载项。请检查输入。"

/-- Mirrors `collect_download_items` (src/main.rs lines 458-484).  `inputs`
is the concatenation, in program order, of the command-line URLs, the
command-line content ids and the input-file lines.  Produces the list of
`(content_id, original_input)` pairs and fails with `InvalidInput` exactly
when that list is empty. -/
def collect_download_items
    (parseQuery : String → Option (List (String × String)))
    (inputs : List String) : Except AppError (List (String × String)) :=
  let download_items := collectAux parseQuery inputs []
  if download_items.isEmpty then .error no_items_error
  else .ok download_items

/-- Specification-side first-occurrence deduplication: keeps the first
occurrence of each element, in order. -/
def firstSeen : List String → List String
  | [] => []
  | x :: xs => x :: firstSeen (xs.filter (fun y => y ≠ x))
termination_by l => l.length
decreasing_by
  simp only [List.length_cons]
  exact Nat.lt_succ_of_le (List.length_filter_le _ xs)

/-- One per-item result as consumed by `process_download_results`
(src/main.rs line 486): `some (original_input, filename, status)` for a
task that ran to completion, `none` for a `JoinError` (the task panicked). -/
def TaskResult : Type :=
  Option (String × String × DownloadStatus)

/-- The status a result is counted under in the stats map: completed tasks
count under their own status, a `JoinError` counts under
`UnexpectedError`. -/
def statusOf (r : TaskResult) : DownloadStatus :=
  match r with
  | some (_, _, st) => st
  | none => .UnexpectedError

/-- True for the statuses `process_download_results` pushes onto
`failed_details` (every status other than `Skipped`, `Success` and
`SuccessNoValidation`), and for `JoinError` results. -/
def isFailedStatus (st : DownloadStatus) : Bool :=
  match st with
  | .Success => false
  | .SuccessNoValidation => false
  | .Skipped => false
  | _ => true

/-- The accumulator threaded through the result loop of
`process_download_results`: the `stats` counter map (modelled as a counting
function), and the two detail lists. -/
structure Agg where
  stats : DownloadStatus → Nat
  skipped_details : List String
  failed_details : List String

/-- `*stats.entry(status).or_insert(0) += 1` (src/main.rs line 494). -/
def bumpStat (f : DownloadStatus → Nat) (st : DownloadStatus) :
    DownloadStatus → Nat :=
  fun t => if t = st then f t + 1 else f t

/-- The loop body of `process_download_results` (src/main.rs lines
491-513): a completed task bumps its status and is recorded in the skipped
or failed detail list as the source does; a `JoinError` bumps
`UnexpectedError` and records a panic entry among the failures. -/
def aggStep (acc : Agg) (r : TaskResult) : Agg :=
  match r with
  | some (original, filename, status) =>
    let stats := bumpStat acc.stats status
    match status with
    | .Skipped =>
        { acc with
          stats := stats
          skipped_details := acc.skipped_details ++ [filename] }
    | .Success => { acc with stats := stats }
    | .SuccessNoValidation => { acc with stats := stats }
    | _ =>
        { acc with
          stats := stats
          failed_details := acc.failed_details ++ [original] }
  | none =>
      { acc with
        stats := bumpStat acc.stats .UnexpectedError
        failed_details := acc.failed_details ++ ["panic"] }

/-- The summary `process_download_results` reports (src/main.rs lines
515-521). -/
structure RunSummary where
  successful_count : Nat
  skipped_count : Nat
  failed_count : Nat
  total_tasks : Nat
  skipped_details : List String
  failed_details : List String

/-- Mirrors `process_download_results` (src/main.rs lines 486-531): folds
the result list, then derives the counts exactly as the source does
(successful = `Success` + `SuccessNoValidation` stats, skipped = `Skipped`
stats, failed = length of the failure detail list, total = their sum). -/
def process_download_results (results : List TaskResult) : RunSummary :=
  let acc := results.foldl aggStep ⟨fun _ => 0, [], []⟩
  let successful_count := acc.stats .Success + acc.stats .SuccessNoValidation
  let skipped_count := acc.stats .Skipped
  let failed_count := acc.failed_details.length
  { successful_count := successful_count,
    skipped_count := skipped_count,
    failed_count := failed_count,
    total_tasks := successful_count + skipped_count + failed_count,
    skipped_details := acc.skipped_details,
    failed_details := acc.failed_details }

/-- The state of the download pool in `main` (src/main.rs lines 568-583):
`available` is the semaphore's free permit count, `active` the number of
spawned tasks still running (each holding one owned permit), `pending` the
number of download items the submission loop has not yet spawned. -/
structure PoolState where
  available : Nat
  active : Nat
  pending : Nat
deriving DecidableEq, Repr

/-- The two events of the pool.  `spawn` is one iteration of the submission
loop: `acquire_owned` succeeds only when a permit is free (otherwise the
loop waits, i.e. no step is enabled), and the spawned task takes the
permit.  `complete` is a task finishing (normally or by panic): its owned
permit is dropped, returning to the semaphore — the drop happens on every
exit path of the spawned future. -/
inductive PoolStep : PoolState → PoolState → Prop
  | spawn (s : PoolState) (ha : 0 < s.available) (hp : 0 < s.pending) :
      PoolStep s ⟨s.available - 1, s.active + 1, s.pending - 1⟩
  | complete (s : PoolState) (h : 0 < s.active) :
      PoolStep s ⟨s.available + 1, s.active - 1, s.pending⟩

/-- States reachable from the start of `main`'s download loop with
concurrency limit `limit` (`Semaphore::new(max_concurrent_downloads)`) and
`n` collected download items, under any interleaving of spawns and
completions. -/
inductive PoolReachable (limit n : Nat) : PoolState → Prop
  | init : PoolReachable limit n ⟨limit, 0, n⟩
  | step {s t : PoolState} : PoolReachable limit n s → PoolStep s t →
      PoolReachable limit n t

/-- A details-response variant whose single storage path ends in the
"pdf.pdf" double extension while the server still supplies an md5. -/
def sampleItem : TechInfoItem :=
  ⟨"source", "pdf", ["http://x/a.pdf.pdf"], some "deadbeef", some 10⟩

/-- A details response containing only `sampleItem`. -/
def sampleResponse : TextbookDetailsResponse :=
  ⟨[sampleItem], "T"⟩

/-- The metadata `get_textbook_details` resolves from `sampleResponse`. -/
def sampleInfo : TextbookInfo :=
  ⟨"http://x/a.pdf.pdf?accessToken=tok", "T.pdf", none, some 10⟩

/-- A string matching the canonical identifier pattern. -/
def cexUuid : String := "0123abcd-4567-89ab-cdef-0123456789ab"

/-- A URL whose only query parameter is named "id" (not "contentId") but
carries a value matching the identifier pattern. -/
def cexUrl : String :=
  "https://example.com/page?id=0123abcd-4567-89ab-cdef-0123456789ab"

/-- A URL-parsing oracle that parses `cexUrl` to its single query pair and
fails on everything else. -/
def cexParseQuery : String → Option (List (String × String)) :=
  fun s => if s = cexUrl then some [("id", cexUuid)] else none

end Smartedu

namespace Smartedu

theorem backoffSleeps_succ (n : Nat) :
    backoffSleeps (n + 1) = backoffSleeps n ++ [RETRY_BASE_DELAY_MS * 2 ^ n] := by
  simp [backoffSleeps, List.range_succ]

theorem download_attempts_invariant (oracle : Nat → AttemptResult) :
    ∀ (remaining attempt : Nat) (lastError : Option DlError),
      (download_attempts oracle attempt remaining lastError
          ⟨attempt, backoffSleeps (attempt - 1)⟩).2.calls ≤ attempt + remaining ∧
      (download_attempts oracle attempt remaining lastError
          ⟨attempt, backoffSleeps (attempt - 1)⟩).2.sleeps =
        backoffSleeps ((download_attempts oracle attempt remaining lastError
          ⟨attempt, backoffSleeps (attempt - 1)⟩).2.calls - 1) := by
  intro remaining
  induction remaining with
  | zero =>
    intro attempt lastError
    exact ⟨by simp [download_attempts], by simp [download_attempts]⟩
  | succ n ih =>
    intro attempt lastError
    cases attempt with
    | zero =>
      cases h : oracle 0 with
      | sendErr =>
        have h1 := ih 1 (some (.fromSend 0))
        have hstep : download_attempts oracle 0 (n + 1) lastError
            ⟨0, backoffSleeps (0 - 1)⟩ =
            download_attempts oracle 1 n (some (.fromSend 0))
            ⟨1, backoffSleeps (1 - 1)⟩ := by
          simp only [download_attempts, h]; rfl
        rw [hstep]
        exact ⟨le_trans h1.1 (by omega), h1.2⟩
      | statusErr u =>
        cases u with
        | false =>
          have h1 := ih 1 (some (.fromStatus 0))
          have hstep : download_attempts oracle 0 (n + 1) lastError
              ⟨0, backoffSleeps (0 - 1)⟩ =
              download_attempts oracle 1 n (some (.fromStatus 0))
              ⟨1, backoffSleeps (1 - 1)⟩ := by
            simp only [download_attempts, h]; rfl
          rw [hstep]
          exact ⟨le_trans h1.1 (by omega), h1.2⟩
        | true =>
          have hstep : download_attempts oracle 0 (n + 1) lastError
              ⟨0, backoffSleeps (0 - 1)⟩ =
              (.ok .TokenError, ⟨1, backoffSleeps (1 - 1)⟩) := by
            simp only [download_attempts, h]; rfl
          rw [hstep]
          exact ⟨by show 1 ≤ 0 + (n + 1); omega, rfl⟩
      | streamErr =>
        have hstep : download_attempts oracle 0 (n + 1) lastError
            ⟨0, backoffSleeps (0 - 1)⟩ =
            (.error (.fromStream 0), ⟨1, backoffSleeps (1 - 1)⟩) := by
          simp only [download_attempts, h]; rfl
        rw [hstep]
        exact ⟨by show 1 ≤ 0 + (n + 1); omega, rfl⟩
      | complete v =>
        have hstep : download_attempts oracle 0 (n + 1) lastError
            ⟨0, backoffSleeps (0 - 1)⟩ =
            (.ok v, ⟨1, backoffSleeps (1 - 1)⟩) := by
          simp only [download_attempts, h]; rfl
        rw [hstep]
        exact ⟨by show 1 ≤ 0 + (n + 1); omega, rfl⟩
    | succ a =>
      cases h : oracle (a + 1) with
      | sendErr =>
        have h1 := ih (a + 2) (some (.fromSend (a + 1)))
        have hstep : download_attempts oracle (a + 1) (n + 1) lastError
            ⟨a + 1, backoffSleeps (a + 1 - 1)⟩ =
            download_attempts oracle (a + 2) n (some (.fromSend (a + 1)))
            ⟨a + 2, backoffSleeps (a + 2 - 1)⟩ := by
          simp only [download_attempts, h, if_pos (show a + 1 > 0 by omega)]
          rw [show a + 1 - 1 = a from rfl, show a + 2 - 1 = a + 1 from rfl,
            backoffSleeps_succ]
        rw [hstep]
        exact ⟨le_trans h1.1 (by omega), h1.2⟩
      | statusErr u =>
        cases u with
        | false =>
          have h1 := ih (a + 2) (some (.fromStatus (a + 1)))
          have hstep : download_attempts oracle (a + 1) (n + 1) lastError
              ⟨a + 1, backoffSleeps (a + 1 - 1)⟩ =
              download_attempts oracle (a + 2) n (some (.fromStatus (a + 1)))
              ⟨a + 2, backoffSleeps (a + 2 - 1)⟩ := by
            simp only [download_attempts, h, if_pos (show a + 1 > 0 by omega)]
            rw [show a + 1 - 1 = a from rfl, show a + 2 - 1 = a + 1 from rfl,
              backoffSleeps_succ]
          rw [hstep]
          exact ⟨le_trans h1.1 (by omega), h1.2⟩
        | true =>
          have hstep : download_attempts oracle (a + 1) (n + 1) lastError
              ⟨a + 1, backoffSleeps (a + 1 - 1)⟩ =
              (.ok .TokenError, ⟨a + 2, backoffSleeps (a + 2 - 1)⟩) := by
            simp only [download_attempts, h, if_pos (show a + 1 > 0 by omega)]
            rw [show a + 1 - 1 = a from rfl, show a + 2 - 1 = a + 1 from rfl,
              backoffSleeps_succ]
          rw [hstep]
          exact ⟨by show a + 2 ≤ a + 1 + (n + 1); omega, rfl⟩
      | streamErr =>
        have hstep : download_attempts oracle (a + 1) (n + 1) lastError
            ⟨a + 1, backoffSleeps (a + 1 - 1)⟩ =
            (.error (.fromStream (a + 1)), ⟨a + 2, backoffSleeps (a + 2 - 1)⟩) := by
          simp only [download_attempts, h, if_pos (show a + 1 > 0 by omega)]
          rw [show a + 1 - 1 = a from rfl, show a + 2 - 1 = a + 1 from rfl,
            backoffSleeps_succ]
        rw [hstep]
        exact ⟨by show a + 2 ≤ a + 1 + (n + 1); omega, rfl⟩
      | complete v =>
        have hstep : download_attempts oracle (a + 1) (n + 1) lastError
            ⟨a + 1, backoffSleeps (a + 1 - 1)⟩ =
            (.ok v, ⟨a + 2, backoffSleeps (a + 2 - 1)⟩) := by
          simp only [download_attempts, h, if_pos (show a + 1 > 0 by omega)]
          rw [show a + 1 - 1 = a from rfl, show a + 2 - 1 = a + 1 from rfl,
            backoffSleeps_succ]
        rw [hstep]
        exact ⟨by show a + 2 ≤ a + 1 + (n + 1); omega, rfl⟩

theorem download_file_trace_eq (oracle : Nat → AttemptResult) :
    (download_file oracle).2 =
      (download_attempts oracle 0 MAX_RETRIES none ⟨0, []⟩).2 := by
  unfold download_file
  split <;> simp_all

/-- C1: every execution of `download_file` issues at most `MAX_RETRIES = 3`
transfer attempts, and the sleeps taken are exactly the backoff schedule of
length `calls - 1`: `RETRY_BASE_DELAY_MS * 2 ^ i` ms before the (i + 2)-nd
attempt (0-based sleep index i), with no sleep before the first attempt. -/
theorem download_file_retry_schedule (oracle : Nat → AttemptResult) :
    (download_file oracle).2.calls ≤ MAX_RETRIES ∧
    (download_file oracle).2.sleeps =
      backoffSleeps ((download_file oracle).2.calls - 1) := by
  have h := download_attempts_invariant oracle MAX_RETRIES 0 none
  have h0 : backoffSleeps (0 - 1) = [] := by simp [backoffSleeps]
  rw [h0] at h
  rw [download_file_trace_eq]
  exact ⟨by simpa using h.1, h.2⟩

end Smartedu

namespace Smartedu

/-- C5: with the file on disk, an expected checksum present, and the computed
checksum equal to it, `validate_local_file` returns `Success` (the spec's
`Verified`), whatever `expected_size` holds. -/
theorem validate_md5_match_verified (f : LocalFile) (info : TextbookInfo)
    (c : String) (hd : f.onDisk = true) (hm : info.expected_md5 = some c)
    (hc : f.md5Result = some c) :
    validate_local_file f info = .Success := by
  have hmm : md5Matches f info = true := by
    simp [md5Matches, hm, hc]
  simp [validate_local_file, hd, hmm]

/-- Witness for C5: a concrete on-disk file whose computed md5 equals the
expected one, with a mismatching expected size present. -/
theorem validate_md5_match_verified_witness :
    validate_local_file ⟨true, some "abc123", some 7⟩
      ⟨"u", "f.pdf", some "abc123", some 999⟩ = .Success :=
  validate_md5_match_verified ⟨true, some "abc123", some 7⟩
    ⟨"u", "f.pdf", some "abc123", some 999⟩ "abc123" rfl rfl rfl

/-- C10: when the path does not exist, `validate_local_file` returns
`SizeValidationFailed` immediately (src/main.rs line 192), even when an
expected checksum is present. -/
theorem validate_missing_file_size_failed (f : LocalFile) (info : TextbookInfo)
    (hd : f.onDisk = false) :
    validate_local_file f info = .SizeValidationFailed := by
  simp [validate_local_file, hd]

/-- Witness for C10: a missing file with an expected checksum present is
reported as `SizeValidationFailed`, not a checksum mismatch. -/
theorem validate_missing_file_size_failed_witness :
    validate_local_file ⟨false, none, none⟩
      ⟨"u", "f.pdf", some "abc123", some 10⟩ = .SizeValidationFailed :=
  validate_missing_file_size_failed ⟨false, none, none⟩
    ⟨"u", "f.pdf", some "abc123", some 10⟩ rfl

end Smartedu

namespace Smartedu

theorem retryable_recorded {a : AttemptResult} (h : retryableResult a) (i : Nat) :
    ∃ e, recordedError a i = some e := by
  rcases h with h | h <;> subst h <;> exact ⟨_, rfl⟩

theorem retry_step_zero (oracle : Nat → AttemptResult) (n : Nat)
    (le : Option DlError) (c : Nat) (s : List Nat) (e : DlError)
    (h : recordedError (oracle 0) 0 = some e) :
    download_attempts oracle 0 (n + 1) le ⟨c, s⟩ =
      download_attempts oracle 1 n (some e) ⟨c + 1, s⟩ := by
  cases ho : oracle 0 with
  | sendErr =>
    simp only [ho, recordedError, Option.some.injEq] at h
    subst h
    simp only [download_attempts, ho]
    rfl
  | statusErr u =>
    cases u with
    | true => simp [ho, recordedError] at h
    | false =>
      simp only [ho, recordedError, Option.some.injEq] at h
      subst h
      simp only [download_attempts, ho]
      rfl
  | streamErr => simp [ho, recordedError] at h
  | complete v => simp [ho, recordedError] at h

theorem retry_step_succ (oracle : Nat → AttemptResult) (a n : Nat)
    (le : Option DlError) (c : Nat) (s : List Nat) (e : DlError)
    (h : recordedError (oracle (a + 1)) (a + 1) = some e) :
    download_attempts oracle (a + 1) (n + 1) le ⟨c, s⟩ =
      download_attempts oracle (a + 2) n (some e)
        ⟨c + 1, s ++ [RETRY_BASE_DELAY_MS * 2 ^ a]⟩ := by
  cases ho : oracle (a + 1) with
  | sendErr =>
    simp only [ho, recordedError, Option.some.injEq] at h
    subst h
    simp only [download_attempts, ho, if_pos (show a + 1 > 0 by omega)]
    rfl
  | statusErr u =>
    cases u with
    | true => simp [ho, recordedError] at h
    | false =>
      simp only [ho, recordedError, Option.some.injEq] at h
      subst h
      simp only [download_attempts, ho, if_pos (show a + 1 > 0 by omega)]
      rfl
  | streamErr => simp [ho, recordedError] at h
  | complete v => simp [ho, recordedError] at h

theorem stream_step_zero (oracle : Nat → AttemptResult) (n : Nat)
    (le : Option DlError) (c : Nat) (s : List Nat)
    (h : oracle 0 = .streamErr) :
    download_attempts oracle 0 (n + 1) le ⟨c, s⟩ =
      (.error (.fromStream 0), ⟨c + 1, s⟩) := by
  simp only [download_attempts, h]
  rfl

theorem stream_step_succ (oracle : Nat → AttemptResult) (a n : Nat)
    (le : Option DlError) (c : Nat) (s : List Nat)
    (h : oracle (a + 1) = .streamErr) :
    download_attempts oracle (a + 1) (n + 1) le ⟨c, s⟩ =
      (.error (.fromStream (a + 1)), ⟨c + 1, s ++ [RETRY_BASE_DELAY_MS * 2 ^ a]⟩) := by
  simp only [download_attempts, h, if_pos (show a + 1 > 0 by omega)]
  rfl

theorem attempts_exhausted (oracle : Nat → AttemptResult) (attempt : Nat)
    (le : Option DlError) (tr : DownloadTrace) :
    download_attempts oracle attempt 0 le tr = (.error (le.getD .unknown), tr) :=
  rfl

/-- C3: when the first attempt receives an HTTP 401, `download_file` returns
`TokenError` (the spec's `AuthError`) with exactly one network call and an
empty sleep list: no retry delay and no further attempts. -/
theorem download_file_auth_short_circuit (oracle : Nat → AttemptResult)
    (h : oracle 0 = .statusErr true) :
    download_file oracle = (.TokenError, ⟨1, []⟩) := by
  have hstep : download_attempts oracle 0 MAX_RETRIES none ⟨0, []⟩ =
      (.ok .TokenError, ⟨1, []⟩) := by
    rw [show MAX_RETRIES = 2 + 1 from rfl]
    simp only [download_attempts, h]
    rfl
  unfold download_file
  rw [hstep]

/-- Witness for C3: a run whose every attempt would be a 401 stops at the
first one. -/
theorem download_file_auth_short_circuit_witness :
    download_file (fun _ => .statusErr true) = (.TokenError, ⟨1, []⟩) :=
  download_file_auth_short_circuit (fun _ => .statusErr true) rfl

/-- Counterexample to C2: a body-streaming/file-I/O error (`streamErr`) on
the first attempt terminates the whole download as `NetworkError` after a
single network call, although two further attempts remained — such errors
are not recorded-and-retried. -/
theorem stream_error_not_retried_counterexample :
    download_file (fun _ => AttemptResult.streamErr) =
      (.NetworkError, ⟨1, []⟩) ∧ 1 < MAX_RETRIES := by
  constructor
  · rfl
  · decide

/-- C2 (amended): only `send()` transport errors and non-401 HTTP status
errors are recorded and retried while attempts remain; when all
`MAX_RETRIES` attempts fail that way the block ends with the error recorded
on the last attempt and the outcome is `NetworkError`; a body-streaming or
file-I/O error instead ends the download immediately as `NetworkError`
after `k + 1` calls, with no further retry. -/
theorem download_file_retry_policy (oracle : Nat → AttemptResult) :
    ((∀ i, i < MAX_RETRIES → retryableResult (oracle i)) →
      (∃ e, recordedError (oracle 2) 2 = some e ∧
        download_attempts oracle 0 MAX_RETRIES none ⟨0, []⟩ =
          (.error e, ⟨3, [500, 1000]⟩)) ∧
      download_file oracle = (.NetworkError, ⟨3, [500, 1000]⟩)) ∧
    (∀ k, k < MAX_RETRIES → (∀ i, i < k → retryableResult (oracle i)) →
      oracle k = .streamErr →
      download_file oracle = (.NetworkError, ⟨k + 1, backoffSleeps k⟩)) := by
  constructor
  · intro hr
    obtain ⟨e0, he0⟩ := retryable_recorded (hr 0 (by decide)) 0
    obtain ⟨e1, he1⟩ := retryable_recorded (hr 1 (by decide)) 1
    obtain ⟨e2, he2⟩ := retryable_recorded (hr 2 (by decide)) 2
    have chain : download_attempts oracle 0 MAX_RETRIES none ⟨0, []⟩ =
        (.error e2, ⟨3, [500, 1000]⟩) :=
      (retry_step_zero oracle 2 none 0 [] e0 he0).trans
        ((retry_step_succ oracle 0 1 (some e0) 1 [] e1 he1).trans
          ((retry_step_succ oracle 1 0 (some e1) 2 [500] e2 he2).trans
            (attempts_exhausted oracle 3 (some e2) ⟨3, [500, 1000]⟩)))
    refine ⟨⟨e2, he2, chain⟩, ?_⟩
    unfold download_file
    rw [chain]
  · intro k hk hr hs
    match k with
    | 0 =>
      have chain : download_attempts oracle 0 MAX_RETRIES none ⟨0, []⟩ =
          (.error (.fromStream 0), ⟨1, []⟩) :=
        stream_step_zero oracle 2 none 0 [] hs
      unfold download_file
      rw [chain]
      rfl
    | 1 =>
      obtain ⟨e0, he0⟩ := retryable_recorded (hr 0 (by decide)) 0
      have chain : download_attempts oracle 0 MAX_RETRIES none ⟨0, []⟩ =
          (.error (.fromStream 1), ⟨2, [500]⟩) :=
        (retry_step_zero oracle 2 none 0 [] e0 he0).trans
          (stream_step_succ oracle 0 1 (some e0) 1 [] hs)
      unfold download_file
      rw [chain]
      rfl
    | 2 =>
      obtain ⟨e0, he0⟩ := retryable_recorded (hr 0 (by decide)) 0
      obtain ⟨e1, he1⟩ := retryable_recorded (hr 1 (by decide)) 1
      have chain : download_attempts oracle 0 MAX_RETRIES none ⟨0, []⟩ =
          (.error (.fromStream 2), ⟨3, [500, 1000]⟩) :=
        (retry_step_zero oracle 2 none 0 [] e0 he0).trans
          ((retry_step_succ oracle 0 1 (some e0) 1 [] e1 he1).trans
            (stream_step_succ oracle 1 0 (some e1) 2 [500] hs))
      unfold download_file
      rw [chain]
      rfl
    | n + 3 =>
      have h3 : n + 3 < MAX_RETRIES := hk
      rw [show MAX_RETRIES = 3 from rfl] at h3
      omega

/-- Witness for the amended C2: with every attempt a transport error, the
download ends as `NetworkError` after 3 calls and sleeps of 500 and 1000 ms. -/
theorem download_file_retry_policy_witness :
    download_file (fun _ => AttemptResult.sendErr) =
      (.NetworkError, ⟨3, [500, 1000]⟩) :=
  ((download_file_retry_policy (fun _ => AttemptResult.sendErr)).1
    (fun i _ => Or.inl rfl)).2

end Smartedu

namespace Smartedu

/-- C6: whenever `get_textbook_details` resolves metadata successfully, the
expected checksum is absent in the title-fallback case (selected storage
path ends, lowercased, with "pdf.pdf") even when the server supplied an
md5, and in the non-fallback case it is exactly the server-supplied md5 —
so a present checksum implies the filename was not title-derived. -/
theorem details_checksum_gated (data : TextbookDetailsResponse)
    (content_id access_token : String) (info : TextbookInfo)
    (source_item : TechInfoItem) (base : String)
    (hfind : data.ti_items.find? isSourcePdf = some source_item)
    (hbase : source_item.ti_storages.head? = some base)
    (hok : get_textbook_details data content_id access_token = .ok info) :
    (storage_is_pdf_pdf base = true → info.expected_md5 = none) ∧
    (storage_is_pdf_pdf base = false →
      info.expected_md5 = source_item.ti_md5) := by
  constructor
  · intro hpp
    simp only [get_textbook_details, hfind, hbase, hpp, if_true,
      Except.ok.injEq] at hok
    subst hok
    rfl
  · intro hpp
    simp only [get_textbook_details, hfind, hbase, hpp, Bool.false_eq_true,
      if_false, Except.ok.injEq] at hok
    subst hok
    rfl

/-- Witness for C6: a response whose storage path is the "pdf.pdf" fallback
case and whose server-side md5 is present resolves with no expected
checksum. -/
theorem details_checksum_gated_witness :
    get_textbook_details sampleResponse "cid" "tok" = .ok sampleInfo ∧
    sampleInfo.expected_md5 = none ∧ sampleItem.ti_md5 = some "deadbeef" := by
  refine ⟨rfl, ?_, rfl⟩
  exact (details_checksum_gated sampleResponse "cid" "tok" sampleInfo
    sampleItem "http://x/a.pdf.pdf" rfl rfl rfl).1 rfl

/-- Counterexample to C7: `cexUrl` parses as a URL containing a query
parameter ("id") whose value matches the identifier pattern, yet
`get_content_id` returns `none`, because the source additionally requires
the parameter key to be exactly "contentId". -/
theorem get_content_id_any_param_counterexample :
    uuidMatch cexUrl = false ∧
    cexParseQuery cexUrl = some [("id", cexUuid)] ∧
    uuidMatch cexUuid = true ∧
    get_content_id cexParseQuery cexUrl = none := by
  exact ⟨by decide, rfl, by decide, by decide⟩

/-- C7 (amended): `get_content_id` returns `some input` when the input
itself matches the identifier pattern; otherwise, if the input does not
parse as a URL it returns `none`, and if it parses with query pairs it
returns `none` exactly when no pair has key "contentId" and a
pattern-matching value; every returned identifier matches the pattern.  The
function is a total Lean function, hence deterministic and total. -/
theorem get_content_id_spec (pq : String → Option (List (String × String)))
    (input : String) :
    (∀ r, get_content_id pq input = some r → uuidMatch r = true) ∧
    (uuidMatch input = true → get_content_id pq input = some input) ∧
    (uuidMatch input = false → pq input = none →
      get_content_id pq input = none) ∧
    (∀ pairs, uuidMatch input = false → pq input = some pairs →
      (get_content_id pq input = none ↔
        ∀ kv ∈ pairs, kv.1 = "contentId" → uuidMatch kv.2 = false)) := by
  refine ⟨?_, ?_, ?_, ?_⟩
  · intro r h
    unfold get_content_id at h
    by_cases hu : uuidMatch input
    · rw [if_pos hu] at h
      cases h
      exact hu
    · rw [if_neg hu] at h
      cases hpq : pq input with
      | none => rw [hpq] at h; cases h
      | some pairs =>
        rw [hpq] at h
        obtain ⟨kv, hmem, hkv⟩ := List.exists_of_findSome?_eq_some h
        by_cases hc : (decide (kv.1 = "contentId") && uuidMatch kv.2) = true
        · rw [if_pos hc] at hkv
          cases hkv
          exact (Bool.and_eq_true _ _ |>.mp hc).2
        · rw [if_neg hc] at hkv
          cases hkv
  · intro hu
    unfold get_content_id
    rw [if_pos hu]
  · intro hu hpq
    unfold get_content_id
    rw [if_neg (by simp [hu]), hpq]
  · intro pairs hu hpq
    unfold get_content_id
    rw [if_neg (by simp [hu]), hpq]
    rw [List.findSome?_eq_none_iff]
    constructor
    · intro hall kv hmem hkey
      have hnone := hall kv hmem
      by_cases hm : uuidMatch kv.2 = true
      · exfalso
        rw [if_pos (by simp [hkey, hm])] at hnone
        cases hnone
      · simpa using hm
    · intro hall kv hmem
      by_cases hk : kv.1 = "contentId"
      · have hm := hall kv hmem hk
        rw [if_neg (by simp [hm])]
      · rw [if_neg (by simp [hk])]

/-- Witness for the amended C7: a bare identifier is returned as-is. -/
theorem get_content_id_spec_witness :
    get_content_id cexParseQuery cexUuid = some cexUuid :=
  (get_content_id_spec cexParseQuery cexUuid).2.1 (by decide)

end Smartedu

namespace Smartedu

theorem firstSeen_nil : firstSeen [] = [] := by
  simp [firstSeen]

theorem firstSeen_cons (x : String) (xs : List String) :
    firstSeen (x :: xs) = x :: firstSeen (xs.filter (fun y => y ≠ x)) := by
  simp [firstSeen]

theorem mem_firstSeen (a : String) (l : List String) :
    a ∈ firstSeen l ↔ a ∈ l := by
  induction l using firstSeen.induct with
  | case1 => simp [firstSeen_nil]
  | case2 x xs ih =>
    rw [firstSeen_cons]
    by_cases h : a = x
    · simp [h]
    · simp only [List.mem_cons, h, false_or]
      rw [ih]
      simp [List.mem_filter, h]

theorem nodup_firstSeen (l : List String) : (firstSeen l).Nodup := by
  induction l using firstSeen.induct with
  | case1 => simp [firstSeen_nil]
  | case2 x xs ih =>
    rw [firstSeen_cons]
    refine List.nodup_cons.mpr ⟨?_, ih⟩
    intro hx
    rw [mem_firstSeen] at hx
    simp [List.mem_filter] at hx

theorem firstSeen_eq_nil (l : List String) : firstSeen l = [] ↔ l = [] := by
  cases l with
  | nil => simp [firstSeen_nil]
  | cons x xs => simp [firstSeen_cons]

theorem collectAux_map_fst (pq : String → Option (List (String × String))) :
    ∀ (inputs seen : List String),
      (collectAux pq inputs seen).map Prod.fst =
        firstSeen ((inputs.filterMap (get_content_id pq)).filter
          (fun id => !decide (id ∈ seen))) := by
  intro inputs
  induction inputs with
  | nil => intro seen; simp [collectAux, firstSeen_nil]
  | cons x rest ih =>
    intro seen
    cases hgc : get_content_id pq x with
    | none =>
      simp only [collectAux, hgc, List.filterMap_cons]
      exact ih seen
    | some id =>
      by_cases hm : id ∈ seen
      · simp only [collectAux, hgc, if_pos hm, List.filterMap_cons]
        rw [ih seen]
        congr 1
        simp [List.filter_cons, hm]
      · simp only [collectAux, hgc, if_neg hm, List.filterMap_cons,
          List.map_cons]
        rw [ih (id :: seen)]
        rw [show ((id :: rest.filterMap (get_content_id pq)).filter
            (fun y => !decide (y ∈ seen))) =
            id :: (rest.filterMap (get_content_id pq)).filter
              (fun y => !decide (y ∈ seen)) from by simp [List.filter_cons, hm]]
        rw [firstSeen_cons]
        congr 2
        rw [List.filter_filter]
        apply List.filter_congr
        intro y _
        by_cases h1 : y = id <;> by_cases h2 : y ∈ seen <;> simp [h1, h2]

/-- C8: `collect_download_items` fails with `InvalidInput` exactly when no
input yields an identifier; on success the produced items carry, in order,
the first occurrence of each extracted identifier — one item per unique
identifier (the id list is duplicate-free and covers exactly the extracted
identifiers), and the list is non-empty. -/
theorem collect_download_items_spec
    (pq : String → Option (List (String × String))) (inputs : List String) :
    (collect_download_items pq inputs = .error no_items_error ↔
      inputs.filterMap (get_content_id pq) = []) ∧
    (∀ items, collect_download_items pq inputs = .ok items →
      items.map Prod.fst = firstSeen (inputs.filterMap (get_content_id pq)) ∧
      (items.map Prod.fst).Nodup ∧
      (∀ id, id ∈ items.map Prod.fst ↔
        id ∈ inputs.filterMap (get_content_id pq)) ∧
      items ≠ []) := by
  have hmain : (collectAux pq inputs []).map Prod.fst =
      firstSeen (inputs.filterMap (get_content_id pq)) := by
    have h := collectAux_map_fst pq inputs []
    simpa using h
  have hempty : collectAux pq inputs [] = [] ↔
      inputs.filterMap (get_content_id pq) = [] := by
    constructor
    · intro h
      rw [h] at hmain
      exact (firstSeen_eq_nil _).mp hmain.symm
    · intro h
      rw [h, firstSeen_nil] at hmain
      exact List.map_eq_nil_iff.mp hmain
  constructor
  · constructor
    · intro h
      simp only [collect_download_items] at h
      by_cases hie : (collectAux pq inputs []).isEmpty = true
      · exact hempty.mp (List.isEmpty_iff.mp hie)
      · rw [if_neg hie] at h
        cases h
    · intro h
      have hnil : collectAux pq inputs [] = [] := hempty.mpr h
      simp only [collect_download_items]
      rw [if_pos (by simp [hnil])]
  · intro items hok
    simp only [collect_download_items] at hok
    by_cases hie : (collectAux pq inputs []).isEmpty = true
    · rw [if_pos hie] at hok
      cases hok
    · rw [if_neg hie] at hok
      injection hok with hitems
      subst hitems
      have hne : collectAux pq inputs [] ≠ [] := by
        intro hc
        exact hie (by simp [hc])
      refine ⟨hmain, ?_, ?_, hne⟩
      · rw [hmain]; exact nodup_firstSeen _
      · intro id
        rw [hmain, mem_firstSeen]

/-- Witness for C8: two copies of the same identifier and an invalid line
collapse to a single item, in first-seen order. -/
theorem collect_download_items_spec_witness :
    collect_download_items (fun _ => none) [cexUuid, cexUuid, "bogus"] =
      .ok [(cexUuid, cexUuid)] ∧
    [(cexUuid, cexUuid)].map Prod.fst =
      firstSeen ([cexUuid, cexUuid, "bogus"].filterMap
        (get_content_id (fun _ => none))) := by
  have h : collect_download_items (fun _ => none) [cexUuid, cexUuid, "bogus"] =
      .ok [(cexUuid, cexUuid)] := by rfl
  exact ⟨h, (((collect_download_items_spec (fun _ => none)
    [cexUuid, cexUuid, "bogus"]).2 [(cexUuid, cexUuid)]) h).1⟩

end Smartedu

namespace Smartedu

theorem aggStep_stats (acc : Agg) (r : TaskResult) :
    (aggStep acc r).stats = bumpStat acc.stats (statusOf r) := by
  match r with
  | none => rfl
  | some (o, f, st) => cases st <;> rfl

theorem aggStep_failed_length (acc : Agg) (r : TaskResult) :
    (aggStep acc r).failed_details.length =
      acc.failed_details.length +
        (if isFailedStatus (statusOf r) then 1 else 0) := by
  match r with
  | none => simp [aggStep, statusOf, isFailedStatus]
  | some (o, f, st) => cases st <;> simp [aggStep, statusOf, isFailedStatus]

theorem foldl_aggStep_stats (s : DownloadStatus) :
    ∀ (results : List TaskResult) (acc : Agg),
      (results.foldl aggStep acc).stats s =
        acc.stats s + results.countP (fun r => decide (statusOf r = s)) := by
  intro results
  induction results with
  | nil => intro acc; simp
  | cons r rest ih =>
    intro acc
    rw [List.foldl_cons, ih, List.countP_cons, aggStep_stats]
    unfold bumpStat
    by_cases h : s = statusOf r
    · simp [h]
      omega
    · have h2 : ¬ statusOf r = s := fun hc => h hc.symm
      simp [h, h2]

theorem foldl_aggStep_failed :
    ∀ (results : List TaskResult) (acc : Agg),
      (results.foldl aggStep acc).failed_details.length =
        acc.failed_details.length +
          results.countP (fun r => isFailedStatus (statusOf r)) := by
  intro results
  induction results with
  | nil => intro acc; simp
  | cons r rest ih =>
    intro acc
    rw [List.foldl_cons, ih, List.countP_cons, aggStep_failed_length]
    by_cases h : isFailedStatus (statusOf r) = true <;> simp [h] <;> omega

theorem status_class_sum (st : DownloadStatus) :
    (if decide (st = .Success) then 1 else 0) +
      (if decide (st = .SuccessNoValidation) then 1 else 0) +
      (if decide (st = .Skipped) then 1 else 0) +
      (if isFailedStatus st then 1 else 0) = 1 := by
  cases st <;> rfl

theorem countP_status_partition :
    ∀ (results : List TaskResult),
      results.countP (fun r => decide (statusOf r = .Success)) +
        results.countP (fun r => decide (statusOf r = .SuccessNoValidation)) +
        results.countP (fun r => decide (statusOf r = .Skipped)) +
        results.countP (fun r => isFailedStatus (statusOf r)) =
      results.length := by
  intro results
  induction results with
  | nil => rfl
  | cons r rest ih =>
    simp only [List.countP_cons, List.length_cons]
    have hsum := status_class_sum (statusOf r)
    omega

/-- C9: for any list of per-item results (with `none` standing for a task
that failed to execute), `process_download_results` counts each result
exactly once — successes, skips and failures are the counts of the three
disjoint status classes — and its reported total equals the number of
submitted results. -/
theorem process_results_accounting (results : List TaskResult) :
    (process_download_results results).successful_count =
      results.countP (fun r => decide (statusOf r = .Success)) +
        results.countP (fun r => decide (statusOf r = .SuccessNoValidation)) ∧
    (process_download_results results).skipped_count =
      results.countP (fun r => decide (statusOf r = .Skipped)) ∧
    (process_download_results results).failed_count =
      results.countP (fun r => isFailedStatus (statusOf r)) ∧
    (process_download_results results).total_tasks = results.length := by
  have hs := foldl_aggStep_stats .Success results ⟨fun _ => 0, [], []⟩
  have hsn := foldl_aggStep_stats .SuccessNoValidation results ⟨fun _ => 0, [], []⟩
  have hsk := foldl_aggStep_stats .Skipped results ⟨fun _ => 0, [], []⟩
  have hf := foldl_aggStep_failed results ⟨fun _ => 0, [], []⟩
  have hp := countP_status_partition results
  simp only [process_download_results]
  refine ⟨?_, ?_, ?_, ?_⟩
  · rw [hs, hsn]
    dsimp only
    omega
  · rw [hsk]
    dsimp only
    omega
  · rw [hf]
    dsimp only [List.length_nil]
    omega
  · rw [hs, hsn, hsk, hf]
    dsimp only [List.length_nil]
    omega

/-- C4: in every state reachable from the start of the download loop —
under any interleaving of task spawns (each consuming a semaphore permit)
and task completions (each returning its permit on exit) — the number of
concurrently active download tasks never exceeds the configured limit, and
permits plus active tasks always account for the whole limit (no permit is
ever leaked). -/
theorem pool_concurrency_bounded (limit n : Nat) (s : PoolState)
    (h : PoolReachable limit n s) :
    s.active ≤ limit ∧ s.available + s.active = limit := by
  induction h with
  | init => simp
  | step hr hstep ih =>
    cases hstep with
    | spawn ha hp =>
      dsimp only
      omega
    | complete hact =>
      dsimp only
      omega

/-- Witness for C4: with limit 5 and two items, spawning one task reaches a
state validating the bound. -/
theorem pool_concurrency_bounded_witness :
    PoolReachable 5 2 ⟨4, 1, 1⟩ ∧ 1 ≤ 5 ∧ 4 + 1 = 5 := by
  have hr : PoolReachable 5 2 ⟨4, 1, 1⟩ :=
    PoolReachable.step PoolReachable.init
      (PoolStep.spawn ⟨5, 0, 2⟩ (by decide) (by decide))
  have hb := pool_concurrency_bounded 5 2 ⟨4, 1, 1⟩ hr
  exact ⟨hr, hb.1, hb.2⟩

end Smartedu
